import Mathlib

set_option maxRecDepth 100000

/-!
Verification of the free-text suggestion parser of the accessibility
dashboard.  The repository contains two near-duplicate implementations of
`parseSuggestion`:

* `src/components/ResultsView.js` (lines 28-69): null-guards the input,
  recognizes two heading conventions (the "###" heading template and a
  numbered-label template), strips bullet glyphs and ordinals from step
  lines, and filters step lines matching /implementation steps/i.
* the unnamed module (`parseSuggestion` at lines 1-37): no null guard,
  only the "###" heading convention, strips only ordinals, filters only
  empty step lines.

The JavaScript string and regex operations used by the source are embedded
explicitly below over `List Char`:

* `s.match(/LIT([\s\S]*?)(?=LOOK)/i)` scans left to right for the first
  position where LIT matches case-insensitively AND the lookahead string
  LOOK occurs somewhere at or after the end of LIT; the capture is the
  (lazy, i.e. shortest) text between them (`matchLazyCI`).
* `s.match(/LIT([\s\S]*)/i)` captures everything after the first
  case-insensitive occurrence of LIT (`matchToEndCI`).
* `||` between match results returns the first non-null one (`jsOr`).
* `trim`, `split('\n')`, `replace(/^\d+\.\s*/,'')`, `replace(/^[-•*]\s*/,'')`
  and the falsiness of `''`/`null` are modelled by `jsTrim`, `splitNL`,
  `stripOrdinal`, `stripBullet` and `Option`/emptiness tests.

Case-insensitive matching in a non-`u`-flag JavaScript regex canonicalizes
ASCII letters only (a non-ASCII character whose case image is ASCII does not
match an ASCII pattern character), so folding ASCII letters (`lowerChar`)
is faithful for the ASCII-only patterns of the source.
-/

namespace A11y

/-- The JavaScript whitespace class `\s` (also used by `String.prototype.trim`),
by code point: space, tab, LF, CR, VT, FF, NBSP, Ogham space, the U+2000
block, LS, PS, NNBSP, MMSP, ideographic space, BOM. -/
def isJSSpace (c : Char) : Bool :=
  c.toNat = 32 || c.toNat = 9 || c.toNat = 10 || c.toNat = 13 ||
  c.toNat = 11 || c.toNat = 12 || c.toNat = 0xa0 || c.toNat = 0x1680 ||
  (0x2000 ≤ c.toNat && c.toNat ≤ 0x200a) ||
  c.toNat = 0x2028 || c.toNat = 0x2029 || c.toNat = 0x202f ||
  c.toNat = 0x205f || c.toNat = 0x3000 || c.toNat = 0xfeff

/-- The JavaScript digit class `\d`, i.e. the code points of '0'..'9'. -/
def isDigitJS (c : Char) : Bool :=
  48 ≤ c.toNat && c.toNat ≤ 57

/-- ASCII lower-casing, the canonicalization performed by the `/i` flag on
the ASCII-only patterns of the source. -/
def lowerChar (c : Char) : Char :=
  if 'A' ≤ c && c ≤ 'Z' then Char.ofNat (c.toNat + 32) else c

/-- `String.prototype.trim()`. -/
def jsTrim (s : List Char) : List Char :=
  ((s.dropWhile isJSSpace).reverse.dropWhile isJSSpace).reverse

/-- `String.prototype.split('\n')` (keeps empty segments). -/
def splitNL : List Char → List (List Char)
  | [] => [[]]
  | c :: t =>
    if c = '\n' then [] :: splitNL t
    else
      match splitNL t with
      | [] => [[c]]
      | h :: r => (c :: h) :: r

/-- Does `pat` match case-insensitively at the start of `s`? -/
def startsWithCI (pat s : List Char) : Bool :=
  (s.take pat.length).map lowerChar == pat.map lowerChar

/-- Index of the first case-insensitive occurrence of `pat` in `s`. -/
def findCI (pat : List Char) : List Char → Option Nat
  | [] => if startsWithCI pat [] then some 0 else none
  | c :: t =>
    if startsWithCI pat (c :: t) then some 0
    else (findCI pat t).map (fun n => n + 1)

/-- JavaScript `||` on regex-match results: the first non-null one. -/
def jsOr (a b : Option (List Char)) : Option (List Char) :=
  match a with
  | some x => some x
  | none => b

/-- One attempt of `/LIT([\s\S]*?)(?=LOOK)/i` anchored at the start of `s`:
LIT must match here and LOOK must occur in the remainder; the capture is the
text up to the first occurrence of LOOK. -/
def lazyAt (lit look s : List Char) : Option (List Char) :=
  if startsWithCI lit s then
    (findCI look (s.drop lit.length)).map (fun j => (s.drop lit.length).take j)
  else none

/-- `s.match(/LIT([\s\S]*?)(?=LOOK)/i)`, capture group 1: the regex engine
tries every start position left to right; a position where LIT matches but
the lookahead never holds is skipped, exactly as in `lazyAt`. -/
def matchLazyCI (lit look : List Char) : List Char → Option (List Char)
  | [] => lazyAt lit look []
  | c :: t => jsOr (lazyAt lit look (c :: t)) (matchLazyCI lit look t)

/-- `s.match(/LIT([\s\S]*)/i)`, capture group 1: everything after the first
case-insensitive occurrence of LIT. -/
def matchToEndCI (lit s : List Char) : Option (List Char) :=
  (findCI lit s).map (fun i => s.drop (i + lit.length))

/-- The JavaScript word class `\w` extended with `-`, i.e. `[\w-]`. -/
def isWordHyphen (c : Char) : Bool :=
  c.isAlpha || isDigitJS c || c = '_' || c = '-'

/-- One attempt of `/1\. Explanation of this [\w-]+ violation([\s\S]*?)(?=2\.)/i`
anchored at the start of `s`.  Since a space is not in `[\w-]`, the greedy
`[\w-]+` can only succeed with the maximal run, which must be non-empty and
followed by " violation". -/
def numExpAt (s : List Char) : Option (List Char) :=
  if startsWithCI ("1. Explanation of this ".data) s then
    let r1 := s.drop ("1. Explanation of this ".data).length
    let run := r1.takeWhile isWordHyphen
    if run.isEmpty then none
    else
      let r2 := r1.drop run.length
      if startsWithCI (" violation".data) r2 then
        let rest := r2.drop (" violation".data).length
        (findCI ("2.".data) rest).map (fun j => rest.take j)
      else none
  else none

/-- Capture group 1 of `suggestion.match(/1\. Explanation of this [\w-]+ violation([\s\S]*?)(?=2\.)/i)`. -/
def matchNumExp : List Char → Option (List Char)
  | [] => numExpAt []
  | c :: t => jsOr (numExpAt (c :: t)) (matchNumExp t)

/-- Capture group 1 of `suggestion.match(/WCAG reference:?([\s\S]*)/i)`:
everything after the first case-insensitive "WCAG reference", skipping one
optional colon. -/
def matchWcagLabel (s : List Char) : Option (List Char) :=
  (findCI ("WCAG reference".data) s).map (fun i =>
    match s.drop (i + ("WCAG reference".data).length) with
    | ':' :: t => t
    | r => r)

/-- `step.replace(/^\d+\.\s*/, '')`: strip a leading non-empty digit run
followed by a period and any whitespace, if present. -/
def stripOrdinal (s : List Char) : List Char :=
  if s.takeWhile isDigitJS = [] then s
  else
    match s.drop (s.takeWhile isDigitJS).length with
    | '.' :: r => r.dropWhile isJSSpace
    | _ => s

/-- The bullet glyph class `[-•*]` of the source, by code point. -/
def isBullet (c : Char) : Bool :=
  c.toNat = 45 || c.toNat = 8226 || c.toNat = 42

/-- `step.replace(/^[-•*]\s*/, '')`: strip one leading bullet glyph and any
following whitespace, if present. -/
def stripBullet : List Char → List Char
  | [] => []
  | c :: t => if isBullet c then t.dropWhile isJSSpace else c :: t

/-- The phrase filtered from step lines by the ResultsView implementation. -/
def implPhrase : List Char := "implementation steps".data

/-- Per-line transformation of the ResultsView steps pipeline:
`step.replace(/^[-•*]\s*/, '').replace(/^\d+\.\s*/, '').trim()`. -/
def lineMapRV (l : List Char) : List Char :=
  jsTrim (stripOrdinal (stripBullet l))

/-- Per-line transformation of the unnamed module's steps pipeline:
`step.replace(/^\d+\.\s*/, '').trim()`. -/
def lineMapU (l : List Char) : List Char :=
  jsTrim (stripOrdinal l)

/-- ResultsView's step filter:
`step.length > 0 && !step.match(/implementation steps/i)`. -/
def keepRV (st : List Char) : Bool :=
  !st.isEmpty && !(findCI implPhrase st).isSome

/-- ResultsView's whole steps pipeline applied to the captured steps block:
trim, split on newlines, per-line strip, filter. -/
def stepsFromBlock (b : List Char) : List (List Char) :=
  ((splitNL (jsTrim b)).map lineMapRV).filter keepRV

/-- The unnamed module's steps pipeline: trim, split, ordinal strip, drop
empty lines only. -/
def stepsFromBlockU (b : List Char) : List (List Char) :=
  ((splitNL (jsTrim b)).map lineMapU).filter (fun st => !st.isEmpty)

/-- `explanationMatch` of ResultsView (both conventions, `||`-chained). -/
def expMatchRV (s : List Char) : Option (List Char) :=
  jsOr (matchLazyCI ("### Concise Technical Explanation".data) ("###".data) s)
       (matchNumExp s)

/-- `fixedHTMLMatch` of ResultsView. -/
def fixMatchRV (s : List Char) : Option (List Char) :=
  jsOr (matchLazyCI ("### Fixed HTML Snippet".data) ("###".data) s)
       (matchLazyCI ("2. Fixed HTML code".data) ("3.".data) s)

/-- `stepsMatch` of ResultsView. -/
def stepsMatchRV (s : List Char) : Option (List Char) :=
  jsOr (matchLazyCI ("### Implementation Steps".data) ("###".data) s)
       (matchLazyCI ("3. Implementation steps".data) ("WCAG reference".data) s)

/-- `wcagMatch` of ResultsView. -/
def wcagMatchRV (s : List Char) : Option (List Char) :=
  jsOr (matchToEndCI ("### WCAG Reference".data) s) (matchWcagLabel s)

/-- `sections.explanation` after the conditional assignments of ResultsView. -/
def explRV (s : List Char) : List Char :=
  match expMatchRV s with
  | some c => jsTrim c
  | none => []

/-- `sections.fixedHTML` after the conditional assignments of ResultsView. -/
def fixRV (s : List Char) : List Char :=
  match fixMatchRV s with
  | some c => jsTrim c
  | none => []

/-- `sections.steps` after the conditional assignments of ResultsView. -/
def stepsRV (s : List Char) : List (List Char) :=
  match stepsMatchRV s with
  | some c => stepsFromBlock c
  | none => []

/-- `sections.wcag` after the conditional assignments of ResultsView. -/
def wcagRV (s : List Char) : List Char :=
  match wcagMatchRV s with
  | some c => jsTrim c
  | none => []

/-- The `sections` record of both implementations (ParsedSuggestion of the
spec: `explanation`, `fixedHTML` = fixedMarkup, `steps`, `wcag` =
standardsReference). -/
structure Sections where
  explanation : List Char
  fixedHTML : List Char
  steps : List (List Char)
  wcag : List Char
deriving DecidableEq, Repr

/-- Body of ResultsView's `parseSuggestion` after the null guard, including
the fallback `if (!sections.explanation && !sections.fixedHTML)`. -/
def parseRVcore (s : List Char) : Sections :=
  if explRV s = [] ∧ fixRV s = [] then ⟨s, [], [], []⟩
  else ⟨explRV s, fixRV s, stepsRV s, wcagRV s⟩

/-- ResultsView's `parseSuggestion`.  `none` models a null/undefined
argument; the guard `if (!suggestion) return null` also fires on the empty
string (falsy in JavaScript). -/
def parseSuggestion : Option (List Char) → Option Sections
  | none => none
  | some s => if s = [] then none else some (parseRVcore s)

/-- `explanationMatch` of the unnamed module (heading convention only). -/
def expMatchU (s : List Char) : Option (List Char) :=
  matchLazyCI ("### Concise Technical Explanation".data) ("###".data) s

/-- `fixedHTMLMatch` of the unnamed module. -/
def fixMatchU (s : List Char) : Option (List Char) :=
  matchLazyCI ("### Fixed HTML Snippet".data) ("###".data) s

/-- `stepsMatch` of the unnamed module. -/
def stepsMatchU (s : List Char) : Option (List Char) :=
  matchLazyCI ("### Implementation Steps".data) ("###".data) s

/-- `wcagMatch` of the unnamed module. -/
def wcagMatchU (s : List Char) : Option (List Char) :=
  matchToEndCI ("### WCAG Reference".data) s

/-- `sections.explanation` of the unnamed module. -/
def explU (s : List Char) : List Char :=
  match expMatchU s with
  | some c => jsTrim c
  | none => []

/-- `sections.fixedHTML` of the unnamed module. -/
def fixU (s : List Char) : List Char :=
  match fixMatchU s with
  | some c => jsTrim c
  | none => []

/-- `sections.steps` of the unnamed module. -/
def stepsU (s : List Char) : List (List Char) :=
  match stepsMatchU s with
  | some c => stepsFromBlockU c
  | none => []

/-- `sections.wcag` of the unnamed module. -/
def wcagU (s : List Char) : List Char :=
  match wcagMatchU s with
  | some c => jsTrim c
  | none => []

/-- The unnamed module's `parseSuggestion` (no null guard: on a null
argument the JavaScript throws, so it is modelled on strings only). -/
def parseSuggestionU (s : List Char) : Sections :=
  if explU s = [] ∧ fixU s = [] then ⟨s, [], [], []⟩
  else ⟨explU s, fixU s, stepsU s, wcagU s⟩

/-- The step lines produced by the shared heading-convention steps matcher:
the split of the trimmed captured block, or no lines when the marker is
absent. -/
def stepsLines (s : List Char) : List (List Char) :=
  match stepsMatchU s with
  | some c => splitNL (jsTrim c)
  | none => []

/-- Decidable form of "this step line begins with digits, a period and
optional whitespace, and its remaining content is non-blank and free of the
phrase 'implementation steps'". -/
def numberedOk (l : List Char) : Bool :=
  !(l.takeWhile isDigitJS).isEmpty &&
    (match l.drop (l.takeWhile isDigitJS).length with
     | '.' :: rest =>
       !(jsTrim rest).isEmpty && !(findCI implPhrase (jsTrim rest)).isSome
     | _ => false)

/-! ## General lemmas about the embedded operations -/

theorem jsOr_none_right (a : Option (List Char)) : jsOr a none = a := by
  cases a <;> rfl

theorem dropWhile_idem (p : Char → Bool) (l : List Char) :
    (l.dropWhile p).dropWhile p = l.dropWhile p := by
  induction l with
  | nil => rfl
  | cons c t ih =>
    by_cases h : p c
    · simp [List.dropWhile_cons, h, ih]
    · simp [List.dropWhile_cons, h]

theorem jsTrim_dropWhile (l : List Char) :
    jsTrim (l.dropWhile isJSSpace) = jsTrim l := by
  unfold jsTrim
  rw [dropWhile_idem]

theorem takeWhile_append_of_pred (p : Char → Bool) (ds : List Char)
    (x : Char) (r : List Char) (hds : ∀ c ∈ ds, p c = true) (hx : p x = false) :
    (ds ++ x :: r).takeWhile p = ds := by
  induction ds with
  | nil => simp [List.takeWhile_cons, hx]
  | cons c t ih =>
    have hc : p c = true := hds c (by simp)
    simp only [List.cons_append, List.takeWhile_cons, hc, if_true]
    rw [ih (fun a ha => hds a (by simp [ha]))]

theorem jsTrim_eq_nil_iff (l : List Char) :
    jsTrim l = [] ↔ ∀ c ∈ l, isJSSpace c = true := by
  unfold jsTrim
  rw [List.reverse_eq_nil_iff, List.dropWhile_eq_nil_iff, ]
  constructor
  · intro h c hc
    rcases List.mem_append.1 ((List.takeWhile_append_dropWhile isJSSpace l) ▸ hc) with h1 | h1
    · exact List.mem_takeWhile_imp h1
    · exact h c (List.mem_reverse.2 h1)
  · intro h c hc
    exact h c ((List.dropWhile_sublist isJSSpace).subset (List.mem_reverse.1 hc))

/-! ## Claim theorems -/

/-- C1 (corrected, counterexample): the claim states that every non-null
input string, including the empty string, parses to a non-null record; but
ResultsView's guard `if (!suggestion) return null` also fires on the empty
string, which is falsy in JavaScript, so `parseSuggestion("")` is null. -/
theorem parseSuggestion_empty_string_none_cex :
    parseSuggestion (some ("".data)) = none := by decide

/-- C1 (amended): `parseSuggestion` returns the no-value result exactly when
the input is absent/null or the empty string; every non-empty input string
yields a (non-null) `Sections` record. -/
theorem parseSuggestion_none_iff_absent_or_empty :
    parseSuggestion none = none ∧
    ∀ s : List Char, parseSuggestion (some s) = none ↔ s = [] := by
  refine ⟨rfl, fun s => ?_⟩
  by_cases h : s = []
  · simp [parseSuggestion, h]
  · simp [parseSuggestion, h]

/-- C2 (corrected, counterexample): on an input where both the explanation
marker and the fixed-markup marker are present but with empty content, the
claim says the fallback is not taken and parsed steps are kept; but the code
tests the emptiness of the extracted strings, not marker presence, so the
fallback IS taken: the whole input becomes the explanation and the parsed
step "Do X" is discarded. -/
theorem both_markers_empty_content_cex :
    parseRVcore ("### Concise Technical Explanation\n### Fixed HTML Snippet\n### Implementation Steps\n1. Do X\n### WCAG Reference\n1.1.1".data) =
      ⟨"### Concise Technical Explanation\n### Fixed HTML Snippet\n### Implementation Steps\n1. Do X\n### WCAG Reference\n1.1.1".data,
       [], [], []⟩ ∧
    ("Do X".data) ∉
      (parseRVcore ("### Concise Technical Explanation\n### Fixed HTML Snippet\n### Implementation Steps\n1. Do X\n### WCAG Reference\n1.1.1".data)).steps := by
  decide

/-- C2 (amended): the fallback record (whole original input as explanation,
other fields empty) is returned precisely when both the extracted
explanation and the extracted fixed markup are empty after matching and
trimming — whether because no marker matched or because a matched section
was empty; otherwise all extracted fields, including empty ones, are kept. -/
theorem fallback_iff_both_extracted_empty (s : List Char) :
    (explRV s = [] ∧ fixRV s = [] → parseRVcore s = ⟨s, [], [], []⟩) ∧
    (¬(explRV s = [] ∧ fixRV s = []) →
      parseRVcore s = ⟨explRV s, fixRV s, stepsRV s, wcagRV s⟩) := by
  constructor
  · intro h
    unfold parseRVcore
    rw [if_pos h]
  · intro h
    unfold parseRVcore
    rw [if_neg h]

/-- C2 witness: both branches of the characterization instantiated — a
marker-free input falls back, a fully marked-up input keeps its fields. -/
theorem fallback_iff_both_extracted_empty_witness :
    parseRVcore ("plain advice with no structure".data) =
      ⟨"plain advice with no structure".data, [], [], []⟩ ∧
    parseRVcore ("### Concise Technical Explanation\nA\n### Fixed HTML Snippet\nB\n### Implementation Steps\n1. C\n### WCAG Reference\nD".data) =
      ⟨explRV ("### Concise Technical Explanation\nA\n### Fixed HTML Snippet\nB\n### Implementation Steps\n1. C\n### WCAG Reference\nD".data),
       fixRV ("### Concise Technical Explanation\nA\n### Fixed HTML Snippet\nB\n### Implementation Steps\n1. C\n### WCAG Reference\nD".data),
       stepsRV ("### Concise Technical Explanation\nA\n### Fixed HTML Snippet\nB\n### Implementation Steps\n1. C\n### WCAG Reference\nD".data),
       wcagRV ("### Concise Technical Explanation\nA\n### Fixed HTML Snippet\nB\n### Implementation Steps\n1. C\n### WCAG Reference\nD".data)⟩ :=
  ⟨(fallback_iff_both_extracted_empty _).1 (by decide),
   (fallback_iff_both_extracted_empty _).2 (by decide)⟩

/-- C3 (confirmed): the end-to-end heading-convention scenario parses to
exactly the record demanded by the specification. -/
theorem heading_convention_end_to_end :
    parseRVcore ("### Concise Technical Explanation\nMissing alt attribute.\n### Fixed HTML Snippet\n<img alt=\"desc\">\n### Implementation Steps\n1. Add alt attribute\n2. Verify with screen reader\n### WCAG Reference\n1.1.1 Non-text Content".data) =
      ⟨"Missing alt attribute.".data, "<img alt=\"desc\">".data,
       ["Add alt attribute".data, "Verify with screen reader".data],
       "1.1.1 Non-text Content".data⟩ := by
  decide

/-- C4 (confirmed): the numbered-label-convention scenario parses via the
second pattern of each `||`-chain: "...text..." becomes the explanation,
"...markup..." the fixed markup, the single line "..." the steps, and
"1.4.3" the standards reference. -/
theorem numbered_convention_end_to_end :
    parseRVcore ("1. Explanation of this color-contrast violation\n...text...\n2. Fixed HTML code\n...markup...\n3. Implementation steps\n...\nWCAG reference: 1.4.3".data) =
      ⟨"...text...".data, "...markup...".data, ["...".data], "1.4.3".data⟩ := by
  decide

/-- C5 (corrected, counterexample): for an input with no recognizable
markers the claim says the explanation equals the trimmed input; but the
fallback carries the raw input, so surrounding whitespace is preserved. -/
theorem fallback_explanation_not_trimmed_cex :
    (parseRVcore ("  unstructured advice  ".data)).explanation ≠
      jsTrim ("  unstructured advice  ".data) ∧
    (parseRVcore ("  unstructured advice  ".data)).explanation =
      "  unstructured advice  ".data := by
  decide

/-- C5 (amended): for every input string in which none of the four section
matchers finds a marker (whitespace-only inputs included), the parser
returns the fallback record whose explanation is the raw, untrimmed input
and whose other three fields are empty. -/
theorem no_markers_fallback_carries_raw_input (s : List Char)
    (h1 : expMatchRV s = none) (h2 : fixMatchRV s = none)
    (h3 : stepsMatchRV s = none) (h4 : wcagMatchRV s = none) :
    parseRVcore s = ⟨s, [], [], []⟩ := by
  have he : explRV s = [] := by simp [explRV, h1]
  have hf : fixRV s = [] := by simp [fixRV, h2]
  unfold parseRVcore
  rw [if_pos ⟨he, hf⟩]

/-- C5 witness: the whitespace-only input " " has no markers and falls back
to itself (not to the trimmed empty string). -/
theorem no_markers_fallback_carries_raw_input_witness :
    parseRVcore (" ".data) = ⟨" ".data, [], [], []⟩ :=
  no_markers_fallback_carries_raw_input (" ".data)
    (by decide) (by decide) (by decide) (by decide)

/-- C9 (confirmed): for every non-empty input the parsed record is never
all-empty — either an extracted field is non-empty, or the fallback carries
the whole (non-empty) input as the explanation. -/
theorem nonempty_input_never_all_empty (s : List Char) (h : s ≠ []) :
    ¬((parseRVcore s).explanation = [] ∧ (parseRVcore s).fixedHTML = [] ∧
      (parseRVcore s).steps = [] ∧ (parseRVcore s).wcag = []) := by
  unfold parseRVcore
  by_cases hc : explRV s = [] ∧ fixRV s = []
  · rw [if_pos hc]
    intro hall
    exact h hall.1
  · rw [if_neg hc]
    intro hall
    exact hc ⟨hall.1, hall.2.1⟩

/-- C9 witness: instantiated at a concrete non-empty unstructured input. -/
theorem nonempty_input_never_all_empty_witness :
    ¬((parseRVcore ("hello".data)).explanation = [] ∧
      (parseRVcore ("hello".data)).fixedHTML = [] ∧
      (parseRVcore ("hello".data)).steps = [] ∧
      (parseRVcore ("hello".data)).wcag = []) :=
  nonempty_input_never_all_empty ("hello".data) (by decide)

/-! ## Step-pipeline lemmas -/

theorem isJSSpace_not_digit (c : Char) (h : isJSSpace c = true) :
    isDigitJS c = false := by
  simp [isJSSpace] at h
  simp [isDigitJS]
  omega

theorem isJSSpace_not_bullet (c : Char) (h : isJSSpace c = true) :
    isBullet c = false := by
  simp [isJSSpace] at h
  simp [isBullet]
  omega

theorem isDigitJS_not_bullet (c : Char) (h : isDigitJS c = true) :
    isBullet c = false := by
  simp [isDigitJS] at h
  simp [isBullet]
  omega

theorem lineMapRV_blank (l : List Char) (h : jsTrim l = []) :
    lineMapRV l = [] := by
  have hall : ∀ c ∈ l, isJSSpace c = true := (jsTrim_eq_nil_iff l).1 h
  cases l with
  | nil => rfl
  | cons c t =>
    have hc : isJSSpace c = true := hall c (by simp)
    have hb : isBullet c = false := isJSSpace_not_bullet c hc
    have hd : isDigitJS c = false := isJSSpace_not_digit c hc
    unfold lineMapRV
    rw [show stripBullet (c :: t) = c :: t by simp [stripBullet, hb]]
    rw [show stripOrdinal (c :: t) = c :: t by
      simp [stripOrdinal, List.takeWhile_cons, hd]]
    exact h

theorem lineMapRV_numbered (l : List Char) (h : numberedOk l = true) :
    jsTrim l ≠ [] ∧ lineMapRV l ≠ [] ∧ keepRV (lineMapRV l) = true ∧
    lineMapRV l = jsTrim (stripOrdinal l) := by
  unfold numberedOk at h
  rw [Bool.and_eq_true] at h
  obtain ⟨hds, hm⟩ := h
  obtain ⟨c, t, rfl⟩ : ∃ c t, l = c :: t := by
    cases l with
    | nil => simp at hds
    | cons c t => exact ⟨c, t, rfl⟩
  have hcd : isDigitJS c = true := by
    by_contra hx
    rw [Bool.not_eq_true] at hx
    rw [List.takeWhile_cons, hx] at hds
    simp at hds
  split at hm
  case _ rest heq =>
    rw [Bool.and_eq_true] at hm
    obtain ⟨hm1, hm2⟩ := hm
    have htr : jsTrim rest ≠ [] := by
      intro hx
      rw [hx] at hm1
      simp at hm1
    have hph : findCI implPhrase (jsTrim rest) = none := by
      cases hfc : findCI implPhrase (jsTrim rest) with
      | none => rfl
      | some v => rw [hfc] at hm2; simp at hm2
    have hb : isBullet c = false := isDigitJS_not_bullet c hcd
    have htw : (c :: t).takeWhile isDigitJS ≠ [] := by
      intro hx
      rw [hx] at hds
      simp at hds
    have hso : stripOrdinal (c :: t) = rest.dropWhile isJSSpace := by
      unfold stripOrdinal
      rw [if_neg htw, heq]
      rfl
    have hlm : lineMapRV (c :: t) = jsTrim rest := by
      unfold lineMapRV
      rw [show stripBullet (c :: t) = c :: t by simp [stripBullet, hb], hso,
        jsTrim_dropWhile]
    refine ⟨?_, ?_, ?_, ?_⟩
    · intro hx
      have hc := (jsTrim_eq_nil_iff _).1 hx c (by simp)
      rw [isJSSpace_not_digit c hc] at hcd
      exact Bool.false_ne_true hcd
    · rw [hlm]; exact htr
    · rw [hlm]
      unfold keepRV
      rw [hph]
      cases hjt : jsTrim rest with
      | nil => exact absurd hjt htr
      | cons a b => simp
    · rw [hlm, hso, jsTrim_dropWhile]
  case _ =>
    simp at hm

theorem steps_pipeline_numbered (ls : List (List Char))
    (h : ∀ l ∈ ls, jsTrim l = [] ∨ numberedOk l = true) :
    (ls.map lineMapRV).filter keepRV =
      (ls.filter (fun l => !(jsTrim l).isEmpty)).map
        (fun l => jsTrim (stripOrdinal l)) := by
  induction ls with
  | nil => rfl
  | cons l t ih =>
    have ht := ih (fun x hx => h x (List.mem_cons_of_mem _ hx))
    rcases h l (List.mem_cons_self _ _) with hb | hn
    · have h1 : lineMapRV l = [] := lineMapRV_blank l hb
      simp only [List.map_cons, List.filter_cons, h1, hb]
      simpa [keepRV] using ht
    · obtain ⟨hjt, hlne, hkeep, heq⟩ := lineMapRV_numbered l hn
      have hje : (!(jsTrim l).isEmpty) = true := by
        cases hx : jsTrim l with
        | nil => exact absurd hx hjt
        | cons a b => simp
      simp only [List.map_cons, List.filter_cons, hkeep, hje, if_true]
      rw [heq, ht]

/-- C6 (corrected, counterexample): the claim says that for a steps section
made of numbered lines the returned steps are exactly the non-blank lines'
texts with ordinals stripped; but the code also filters out any stripped
line containing "implementation steps" case-insensitively, so the numbered
line "2. See implementation steps" is silently dropped. -/
theorem steps_numbered_block_cex :
    (parseRVcore ("### Concise Technical Explanation\nE\n### Fixed HTML Snippet\nF\n### Implementation Steps\n1. Add alt text\n2. See implementation steps\n### WCAG Reference\nW".data)).steps =
      ["Add alt text".data] ∧
    ("See implementation steps".data) ∉
      (parseRVcore ("### Concise Technical Explanation\nE\n### Fixed HTML Snippet\nF\n### Implementation Steps\n1. Add alt text\n2. See implementation steps\n### WCAG Reference\nW".data)).steps := by
  decide

/-- C6 (amended): for every steps block whose lines are each either blank or
numbered (digits, a period, optional whitespace) with non-blank content that
does not contain the phrase "implementation steps" case-insensitively, the
step pipeline returns exactly the non-blank lines' texts with the ordinal
stripped, in input order, and never an empty-string step. -/
theorem steps_numbered_block_exact (b : List Char)
    (h : ∀ l ∈ splitNL (jsTrim b), jsTrim l = [] ∨ numberedOk l = true) :
    stepsFromBlock b =
      ((splitNL (jsTrim b)).filter (fun l => !(jsTrim l).isEmpty)).map
        (fun l => jsTrim (stripOrdinal l)) ∧
    [] ∉ stepsFromBlock b := by
  constructor
  · unfold stepsFromBlock
    exact steps_pipeline_numbered _ h
  · intro hmem
    have hk := List.of_mem_filter hmem
    have hf : keepRV ([] : List Char) = false := by decide
    rw [hf] at hk
    exact Bool.false_ne_true hk

/-- C6 witness: the blank-line-robustness block from the specification —
a blank line between two numbered items yields exactly the two stripped
steps and no empty step. -/
theorem steps_numbered_block_exact_witness :
    (stepsFromBlock ("1. Add alt text\n\n2. Verify contrast".data) =
      ((splitNL (jsTrim ("1. Add alt text\n\n2. Verify contrast".data))).filter
        (fun l => !(jsTrim l).isEmpty)).map (fun l => jsTrim (stripOrdinal l)) ∧
     [] ∉ stepsFromBlock ("1. Add alt text\n\n2. Verify contrast".data)) ∧
    stepsFromBlock ("1. Add alt text\n\n2. Verify contrast".data) =
      ["Add alt text".data, "Verify contrast".data] :=
  ⟨steps_numbered_block_exact _ (by decide), by decide⟩

/-- C7 (confirmed): a steps line beginning with a bullet glyph has the
bullet prefix (the glyph and any following whitespace) stripped before the
ordinal strip and trim are applied; in particular "- Do X" yields "Do X". -/
theorem bullet_stripped_from_step (c : Char) (t : List Char)
    (h : isBullet c = true) :
    lineMapRV (c :: t) = jsTrim (stripOrdinal (t.dropWhile isJSSpace)) := by
  unfold lineMapRV
  rw [show stripBullet (c :: t) = t.dropWhile isJSSpace by
    simp [stripBullet, h]]

/-- C7 witness: the concrete steps line "- Do X" yields the step "Do X". -/
theorem bullet_stripped_from_step_witness :
    lineMapRV ("- Do X".data) = "Do X".data := by
  have h := bullet_stripped_from_step '-' (" Do X".data) (by decide)
  exact h.trans (by decide)

/-- C8 (corrected, counterexample): the claim says only lines that are
themselves mere restatements of the label "implementation steps" are
discarded; but the code filters by substring match, so the numbered line
"1. Review implementation steps checklist" — not a restatement of the
label — is also discarded, leaving no steps at all. -/
theorem phrase_filter_substring_cex :
    (parseRVcore ("### Concise Technical Explanation\nE\n### Fixed HTML Snippet\nF\n### Implementation Steps\n1. Review implementation steps checklist\n### WCAG Reference\nW".data)).steps = [] ∧
    (lineMapRV ("1. Review implementation steps checklist".data)).map lowerChar ≠
      implPhrase.map lowerChar := by
  decide

/-- C8 (amended): a steps-section line whose stripped text contains the
phrase "implementation steps" as a case-insensitive substring is discarded
from the returned steps, and a line whose stripped text is non-empty and
free of the phrase is kept. -/
theorem phrase_filter_substring (b l : List Char)
    (hl : l ∈ splitNL (jsTrim b)) :
    ((findCI implPhrase (lineMapRV l)).isSome = true →
      lineMapRV l ∉ stepsFromBlock b) ∧
    (lineMapRV l ≠ [] → findCI implPhrase (lineMapRV l) = none →
      lineMapRV l ∈ stepsFromBlock b) := by
  constructor
  · intro hph hmem
    have hk := List.of_mem_filter hmem
    unfold keepRV at hk
    rw [hph] at hk
    simp at hk
  · intro hne hph
    unfold stepsFromBlock
    rw [List.mem_filter]
    refine ⟨List.mem_map_of_mem _ hl, ?_⟩
    unfold keepRV
    rw [hph]
    cases hx : lineMapRV l with
    | nil => exact absurd hx hne
    | cons a r => simp

/-- C8 witness: in the block "1. Do X\n2. Follow implementation steps" the
phrase-bearing line is discarded and the other line is kept. -/
theorem phrase_filter_substring_witness :
    ("Follow implementation steps".data ∉
      stepsFromBlock ("1. Do X\n2. Follow implementation steps".data)) ∧
    ("Do X".data ∈
      stepsFromBlock ("1. Do X\n2. Follow implementation steps".data)) := by
  constructor
  · have h := (phrase_filter_substring ("1. Do X\n2. Follow implementation steps".data)
      ("2. Follow implementation steps".data) (by decide)).1 (by decide)
    have e : lineMapRV ("2. Follow implementation steps".data) =
        "Follow implementation steps".data := by decide
    rw [e] at h
    exact h
  · have h := (phrase_filter_substring ("1. Do X\n2. Follow implementation steps".data)
      ("1. Do X".data) (by decide)).2 (by decide) (by decide)
    have e : lineMapRV ("1. Do X".data) = "Do X".data := by decide
    rw [e] at h
    exact h

/-! ## Equivalence of the two implementations (C10) -/

theorem steps_pipeline_no_bullets (ls : List (List Char))
    (h : ∀ l ∈ ls, stripBullet l = l ∧
        findCI implPhrase (jsTrim (stripOrdinal l)) = none) :
    (ls.map lineMapRV).filter keepRV =
      (ls.map lineMapU).filter (fun st => !st.isEmpty) := by
  induction ls with
  | nil => rfl
  | cons l t ih =>
    have ht := ih (fun x hx => h x (List.mem_cons_of_mem _ hx))
    obtain ⟨hb, hph⟩ := h l (List.mem_cons_self _ _)
    have hmap : lineMapRV l = lineMapU l := by
      unfold lineMapRV lineMapU
      rw [hb]
    have hkeep : keepRV (lineMapU l) = (!(lineMapU l).isEmpty) := by
      unfold keepRV
      rw [show findCI implPhrase (lineMapU l) = none from hph]
      simp
    simp only [List.map_cons, List.filter_cons, hmap, hkeep, ht]

/-- C10 (confirmed): for every non-empty input on which none of the
numbered-label patterns matches, whose standards reference appears (if at
all) under the heading convention, and whose heading-convention step lines
carry no leading bullet glyph and no occurrence of the phrase
"implementation steps" after stripping, the ResultsView implementation and
the unnamed module's implementation return the same record. -/
theorem implementations_agree_on_heading_inputs (s : List Char) (hne : s ≠ [])
    (h1 : matchNumExp s = none)
    (h2 : matchLazyCI ("2. Fixed HTML code".data) ("3.".data) s = none)
    (h3 : matchLazyCI ("3. Implementation steps".data) ("WCAG reference".data) s = none)
    (h4 : matchWcagLabel s = none ∨
      (matchToEndCI ("### WCAG Reference".data) s).isSome = true)
    (h5 : ∀ l ∈ stepsLines s, stripBullet l = l ∧
        findCI implPhrase (jsTrim (stripOrdinal l)) = none) :
    parseSuggestion (some s) = some (parseSuggestionU s) := by
  have hexp : expMatchRV s = expMatchU s := by
    unfold expMatchRV expMatchU
    rw [h1, jsOr_none_right]
  have hfix : fixMatchRV s = fixMatchU s := by
    unfold fixMatchRV fixMatchU
    rw [h2, jsOr_none_right]
  have hsteps : stepsMatchRV s = stepsMatchU s := by
    unfold stepsMatchRV stepsMatchU
    rw [h3, jsOr_none_right]
  have hwcag : wcagMatchRV s = wcagMatchU s := by
    unfold wcagMatchRV wcagMatchU
    rcases h4 with h | h
    · rw [h, jsOr_none_right]
    · cases hw : matchToEndCI ("### WCAG Reference".data) s with
      | none => rw [hw] at h; simp at h
      | some x => rfl
  have hex : explRV s = explU s := by
    unfold explRV explU
    rw [hexp]
  have hfx : fixRV s = fixU s := by
    unfold fixRV fixU
    rw [hfix]
  have hwc : wcagRV s = wcagU s := by
    unfold wcagRV wcagU
    rw [hwcag]
  have hst : stepsRV s = stepsU s := by
    unfold stepsRV stepsU
    rw [hsteps]
    cases hm : stepsMatchU s with
    | none => rfl
    | some c =>
      unfold stepsFromBlock stepsFromBlockU
      apply steps_pipeline_no_bullets
      intro l hl
      apply h5
      unfold stepsLines
      rw [hm]
      exact hl
  have hcore : parseRVcore s = parseSuggestionU s := by
    unfold parseRVcore parseSuggestionU
    rw [hex, hfx, hst, hwc]
  show (if s = [] then none else some (parseRVcore s)) = some (parseSuggestionU s)
  rw [if_neg hne, hcore]

/-- C10 witness: a concrete heading-convention input on which both
implementations return the same record. -/
theorem implementations_agree_on_heading_inputs_witness :
    parseSuggestion (some ("### Concise Technical Explanation\nAlt text missing\n### Fixed HTML Snippet\n<img>\n### Implementation Steps\n1. Fix it\n### WCAG Reference\n1.1.1".data)) =
      some (parseSuggestionU ("### Concise Technical Explanation\nAlt text missing\n### Fixed HTML Snippet\n<img>\n### Implementation Steps\n1. Fix it\n### WCAG Reference\n1.1.1".data)) :=
  implementations_agree_on_heading_inputs _ (by decide) (by decide) (by decide)
    (by decide) (Or.inr (by decide)) (by decide)

end A11y
